import Mathlib

/-
Shallow embedding of the header-synchronization scheduler of
parity-bridges-common (relays/ethereum/src/sync.rs) and of the message-lane
primitives (primitives/messages/src/lib.rs).

Header numbers, hashes and estimated sizes are modelled as Nat: the pipeline
contract only requires a totally ordered Number with saturating subtraction
and increment, an equality-comparable Hash, and a size estimator.  Rust usize
quantities (queue bounds, batch bounds) are modelled as Nat.  Message nonces
are u64 values: they are modelled as Nat together with an explicit bound
2^64 - 1 where overflow matters.
-/

/-- HeaderId from sync_types.rs: a (number, hash) pair. -/
structure HeaderId where
  number : Nat
  hash : Nat
deriving DecidableEq

/-- Header lifecycle statuses from sync_types.rs, as used by the scheduler. -/
inductive HeaderStatus where
  | MaybeOrphan
  | Orphan
  | MaybeExtra
  | Ready
  | Submitted
deriving DecidableEq

/-- A queued header: an opaque header reduced to its id and the data the
engine inspects; the estimated encoded size is carried alongside. -/
structure QueuedHeader where
  id : HeaderId
  size : Nat
deriving DecidableEq

/-- The pipeline size estimator P::estimate_size, reading the carried size. -/
def estimate_size (header : QueuedHeader) : Nat :=
  header.size

/-- Modelled from the spec: the Header Queue of headers.rs, which is not
among the given sources.  It owns every header known to the engine, each in
exactly one status; `last_target_id` records the header most recently
reported as applied by the target ledger. -/
structure QueuedHeaders where
  entries : List (QueuedHeader × HeaderStatus)
  last_target_id : Option HeaderId
deriving DecidableEq

/-- Modelled from the spec: `total_headers()` counts every tracked header. -/
def QueuedHeaders.total_headers (q : QueuedHeaders) : Nat :=
  q.entries.length

/-- Modelled from the spec: `best_queued_number()` is the maximal number
across all tracked headers, zero when the queue is empty. -/
def QueuedHeaders.best_queued_number (q : QueuedHeaders) : Nat :=
  q.entries.foldl (fun acc e => max acc e.1.id.number) 0

/-- Modelled from the spec: `headers_in_status(status)` counts the headers
holding the given status. -/
def QueuedHeaders.headers_in_status (q : QueuedHeaders) (status : HeaderStatus) : Nat :=
  (q.entries.filter (fun e => decide (e.2 = status))).length

/-- Insert a header into a number-sorted list, keeping ascending order. -/
def insertByNumber (h : QueuedHeader) : List QueuedHeader → List QueuedHeader
  | [] => [h]
  | h2 :: t =>
    if h.id.number ≤ h2.id.number then h :: h2 :: t else h2 :: insertByNumber h t

/-- Sort a list of headers into ascending-number order. -/
def sortByNumber : List QueuedHeader → List QueuedHeader
  | [] => []
  | h :: t => insertByNumber h (sortByNumber t)

/-- Modelled from the spec: the headers holding a status, walked in
ascending-number order. -/
def QueuedHeaders.inStatus (q : QueuedHeaders) (status : HeaderStatus) : List QueuedHeader :=
  sortByNumber ((q.entries.filter (fun e => decide (e.2 = status))).map Prod.fst)

/-- The early-exit walk underlying the ordered query: the stateful predicate
either extends its state (header accepted) or stops the walk. -/
def takeWhileState {σ : Type} (f : QueuedHeader → σ → Option σ) : σ → List QueuedHeader → List QueuedHeader
  | _, [] => []
  | st, h :: t =>
    match f h st with
    | none => []
    | some st2 => h :: takeWhileState f st2 t

/-- Modelled from the spec: `headers(status, predicate)` walks the headers in
the status in ascending-number order, stopping as soon as the predicate
refuses an entry, and returns nothing when zero headers were selected. -/
def QueuedHeaders.headers {σ : Type} (q : QueuedHeaders) (status : HeaderStatus)
    (f : QueuedHeader → σ → Option σ) (init : σ) : Option (List QueuedHeader) :=
  let selected := takeWhileState f init (q.inStatus status)
  if selected = [] then none else some selected

/-- Modelled from the spec: `target_best_header_response(id)` records that
the target ledger now recognizes the id as applied. -/
def QueuedHeaders.target_best_header_response (q : QueuedHeaders) (best_header : HeaderId) : QueuedHeaders :=
  { q with last_target_id := some best_header }

/-- Modelled from the spec: `prune(border_number)` removes every tracked
header with number at or below the border. -/
def QueuedHeaders.prune (q : QueuedHeaders) (border_number : Nat) : QueuedHeaders :=
  { q with entries := q.entries.filter (fun e => decide (border_number < e.1.id.number)) }

/-- Modelled from the spec: `clear()` empties all queue state. -/
def QueuedHeaders.clear (_q : QueuedHeaders) : QueuedHeaders :=
  { entries := [], last_target_id := none }

/-- Target transaction mode from sync.rs. -/
inductive TargetTransactionMode where
  | Signed
  | Unsigned
  | Backup
deriving DecidableEq

/-- Common sync params from sync.rs. -/
structure HeadersSyncParams where
  max_future_headers_to_download : Nat
  max_headers_in_submitted_status : Nat
  max_headers_in_single_submit : Nat
  max_headers_size_in_single_submit : Nat
  prune_depth : Nat
  target_tx_mode : TargetTransactionMode
deriving DecidableEq

/-- Headers synchronization context from sync.rs. -/
structure HeadersSync where
  params : HeadersSyncParams
  source_best_number : Option Nat
  target_best_header : Option HeaderId
  headers : QueuedHeaders
deriving DecidableEq

/-- HeadersSync::is_almost_synced from sync.rs. -/
def HeadersSync.is_almost_synced (s : HeadersSync) : Bool :=
  match s.source_best_number with
  | some source_best_number =>
    (s.target_best_header.map
      (fun best => decide (source_best_number - best.number < 4))).getD false
  | none => true

/-- HeadersSync::status from sync.rs: the target best header and the source
best number. -/
def HeadersSync.status (s : HeadersSync) : Option HeaderId × Option Nat :=
  (s.target_best_header, s.source_best_number)

/-- HeadersSync::select_new_header_to_download from sync.rs. -/
def HeadersSync.select_new_header_to_download (s : HeadersSync) : Option Nat :=
  match s.source_best_number with
  | none => none
  | some source_best_number =>
    match s.target_best_header with
    | none => none
    | some target_best_header =>
      if s.headers.total_headers ≥ s.params.max_future_headers_to_download then none
      else
        let best_downloaded_number := max s.headers.best_queued_number target_best_header.number
        if best_downloaded_number = source_best_number then none
        else some (best_downloaded_number + 1)

/-- Rust usize checked subtraction. -/
def checked_sub (a b : Nat) : Option Nat :=
  if b ≤ a then some (a - b) else none

/-- The stateful closure passed by HeadersSync::select_headers_to_submit to
the ordered Ready walk, threading (total_headers, total_size). -/
def submit_step (headers_to_submit_count max_headers_in_single_submit max_headers_size_in_single_submit : Nat)
    (header : QueuedHeader) (st : Nat × Nat) : Option (Nat × Nat) :=
  if st.1 = headers_to_submit_count then none
  else if st.1 = max_headers_in_single_submit then none
  else if st.1 ≠ 0 ∧ st.2 + estimate_size header > max_headers_size_in_single_submit then none
  else some (st.1 + 1, st.2 + estimate_size header)

/-- HeadersSync::select_headers_to_submit from sync.rs. -/
def HeadersSync.select_headers_to_submit (s : HeadersSync) (stalled : Bool) : Option (List QueuedHeader) :=
  if s.params.target_tx_mode = TargetTransactionMode.Backup ∧ stalled = false then none
  else
    match checked_sub s.params.max_headers_in_submitted_status
        (s.headers.headers_in_status HeaderStatus.Submitted) with
    | none => none
    | some headers_to_submit_count =>
      s.headers.headers HeaderStatus.Ready
        (submit_step headers_to_submit_count
          s.params.max_headers_in_single_submit
          s.params.max_headers_size_in_single_submit)
        (0, 0)

/-- HeadersSync::source_best_header_number_response from sync.rs. -/
def HeadersSync.source_best_header_number_response (s : HeadersSync) (best_header_number : Nat) : HeadersSync :=
  { s with source_best_number := some best_header_number }

/-- HeadersSync::target_best_header_response from sync.rs: returns whether
the reported header differed from the recorded one, and the updated state. -/
def HeadersSync.target_best_header_response (s : HeadersSync) (best_header : HeaderId) : Bool × HeadersSync :=
  if s.target_best_header = some best_header then (false, s)
  else
    let headers1 := s.headers.target_best_header_response best_header
    let headers2 := headers1.prune (best_header.number - s.params.prune_depth)
    (true, { s with headers := headers2, target_best_header := some best_header })

/-- HeadersSync::restart from sync.rs. -/
def HeadersSync.restart (s : HeadersSync) : HeadersSync :=
  { s with source_best_number := none, target_best_header := none, headers := s.headers.clear }

/-- A scheduler state with all scheduler and queue state cleared: both
heights unknown and no tracked header. -/
def HeadersSync.cleared (s : HeadersSync) : Prop :=
  s.status = (none, none) ∧ s.headers.total_headers = 0

/- primitives/messages/src/lib.rs -/

/-- The largest u64 value. -/
def UMAX : Nat := 2 ^ 64 - 1

/-- Rust u64 checked addition: none exactly on overflow past u64::MAX. -/
def checked_add_u64 (a b : Nat) : Option Nat :=
  if a + b ≤ UMAX then some (a + b) else none

/-- total_unrewarded_messages from primitives/messages/src/lib.rs.  The
VecDeque of (lowest nonce, highest nonce, relayer) entries is a list; front
is the head, back is the last element. -/
def total_unrewarded_messages {RelayerId : Type} (relayers : List (Nat × Nat × RelayerId)) : Option Nat :=
  match relayers.head?, relayers.getLast? with
  | some (begin_nonce, _, _), some (_, end_nonce, _) =>
    match checked_sub end_nonce begin_nonce with
    | some difference => checked_add_u64 difference 1
    | none => some 0
  | _, _ => some 0

/-- InboundLaneData from primitives/messages/src/lib.rs. -/
structure InboundLaneData (RelayerId : Type) where
  relayers : List (Nat × Nat × RelayerId)
  last_confirmed_nonce : Nat
deriving DecidableEq

/-- The Default value of InboundLaneData: no relayer entries and last
confirmed nonce zero. -/
def InboundLaneData.default {RelayerId : Type} : InboundLaneData RelayerId :=
  { relayers := [], last_confirmed_nonce := 0 }

/-- InboundLaneData::last_delivered_nonce from primitives/messages/src/lib.rs. -/
def InboundLaneData.last_delivered_nonce {RelayerId : Type} (d : InboundLaneData RelayerId) : Nat :=
  match d.relayers.getLast? with
  | some (_, last_nonce, _) => last_nonce
  | none => d.last_confirmed_nonce

/- Concrete states used by the witness theorems. -/

/-- A concrete scheduler state: source at 102, a target best header at 100,
and header 101 of size 10 Ready in the queue. -/
def demoState : HeadersSync :=
  ⟨⟨128, 4, 8, 100, 50, TargetTransactionMode.Signed⟩,
   some 102, some ⟨100, 0⟩,
   ⟨[(⟨⟨101, 0⟩, 10⟩, HeaderStatus.Ready)], none⟩⟩

/-- A concrete scheduler state whose target best header is still unknown. -/
def demoNoTarget : HeadersSync :=
  ⟨⟨128, 4, 8, 100, 50, TargetTransactionMode.Signed⟩,
   some 102, none,
   ⟨[], none⟩⟩

/-- A concrete scheduler state whose in-flight submission budget is
exhausted: one header Submitted with a limit of one. -/
def demoFull : HeadersSync :=
  ⟨⟨128, 1, 8, 100, 50, TargetTransactionMode.Signed⟩,
   some 102, some ⟨100, 0⟩,
   ⟨[(⟨⟨101, 0⟩, 10⟩, HeaderStatus.Submitted), (⟨⟨102, 0⟩, 10⟩, HeaderStatus.Ready)], none⟩⟩

/-- A concrete relayers deque with two entries covering nonces 3..9. -/
def demoRelayers : List (Nat × Nat × Nat) := [(3, 5, 1), (6, 9, 2)]

/-- A concrete inbound lane with one relayer entry covering nonces 1..3. -/
def demoLane : InboundLaneData Nat := ⟨[(1, 3, 7)], 9⟩

/-- A concrete inbound lane with no relayer entries. -/
def demoLaneEmpty : InboundLaneData Nat := ⟨[], 9⟩

/- Helper lemmas. -/

/-- The last element reported by getLast? is a member of the list. -/
theorem mem_of_getLast_opt {α : Type} : ∀ {l : List α} {a : α}, l.getLast? = some a → a ∈ l := by
  intro l
  induction l with
  | nil => intro a h; simp at h
  | cons x t ih =>
    intro a h
    cases ht : t with
    | nil =>
      subst ht
      simp [List.getLast?] at h
      simp [h]
    | cons y u =>
      rw [ht] at h ih
      rw [List.getLast?_cons_cons] at h
      exact List.mem_cons_of_mem x (ih h)

/- Claim theorems. -/

/-- Claim C5: is_almost_synced returns true whenever the source best number
is unknown, and when both the source best number and the target best header
are known it returns true exactly when the source best number
saturating-minus the target best number is strictly below 4. -/
theorem is_almost_synced_spec (s : HeadersSync) :
    (s.source_best_number = none → s.is_almost_synced = true) ∧
    (∀ sb tb, s.source_best_number = some sb → s.target_best_header = some tb →
      (s.is_almost_synced = true ↔ sb - tb.number < 4)) := by
  constructor
  · intro h
    simp [HeadersSync.is_almost_synced, h]
  · intro sb tb hs ht
    simp [HeadersSync.is_almost_synced, hs, ht]

/-- Witness for C5 at the concrete state demoState. -/
theorem is_almost_synced_spec_witness :
    demoState.source_best_number = some 102 ∧
    demoState.target_best_header = some ⟨100, 0⟩ ∧
    (demoState.is_almost_synced = true ↔ (102 : Nat) - 100 < 4) :=
  ⟨rfl, rfl, (is_almost_synced_spec demoState).2 102 ⟨100, 0⟩ rfl rfl⟩

/-- Claim C6: when the source best number is known but the target best
header is still unknown, is_almost_synced returns false. -/
theorem is_almost_synced_target_unknown (s : HeadersSync) (sb : Nat)
    (h1 : s.source_best_number = some sb) (h2 : s.target_best_header = none) :
    s.is_almost_synced = false := by
  simp [HeadersSync.is_almost_synced, h1, h2]

/-- Witness for C6 at the concrete state demoNoTarget. -/
theorem is_almost_synced_target_unknown_witness :
    demoNoTarget.source_best_number = some 102 ∧
    demoNoTarget.target_best_header = none ∧
    demoNoTarget.is_almost_synced = false :=
  ⟨rfl, rfl, is_almost_synced_target_unknown demoNoTarget 102 rfl rfl⟩

/-- Claim C8: source_best_header_number_response overwrites the recorded
source best number unconditionally and leaves the target best header, the
header queue and the parameters unchanged. -/
theorem source_best_header_number_response_spec (s : HeadersSync) (n : Nat) :
    (s.source_best_header_number_response n).source_best_number = some n ∧
    (s.source_best_header_number_response n).target_best_header = s.target_best_header ∧
    (s.source_best_header_number_response n).headers = s.headers ∧
    (s.source_best_header_number_response n).params = s.params :=
  ⟨rfl, rfl, rfl, rfl⟩

/-- Claim C7: restart clears the source best number, the target best header
and the header queue in one step, and neither of the other two mutating
scheduler operations ever produces a fully cleared state. -/
theorem restart_spec (s : HeadersSync) :
    (s.restart.cleared ∧ s.restart.status = (none, none) ∧ s.restart.headers.total_headers = 0) ∧
    (∀ n, ¬ (s.source_best_header_number_response n).cleared) ∧
    (∀ bh, ¬ ((s.target_best_header_response bh).2).cleared) := by
  refine ⟨⟨⟨rfl, rfl⟩, rfl, rfl⟩, ?_, ?_⟩
  · intro n hc
    obtain ⟨hst, htot⟩ := hc
    have h2 := congrArg Prod.snd hst
    simp [HeadersSync.status, HeadersSync.source_best_header_number_response] at h2
  · intro bh hc
    obtain ⟨hst, htot⟩ := hc
    unfold HeadersSync.target_best_header_response at hst
    by_cases heq : s.target_best_header = some bh
    · rw [if_pos heq] at hst
      have h1 := congrArg Prod.fst hst
      simp only [HeadersSync.status] at h1
      rw [heq] at h1
      exact Option.noConfusion h1
    · rw [if_neg heq] at hst
      have h1 := congrArg Prod.fst hst
      simp [HeadersSync.status] at h1

/-- Witness for C7 at the concrete state demoState. -/
theorem restart_spec_witness :
    demoState.restart.status = (none, none) ∧
    demoState.restart.headers.total_headers = 0 ∧
    ¬ (demoState.source_best_header_number_response 7).cleared ∧
    ¬ ((demoState.target_best_header_response ⟨100, 1⟩).2).cleared :=
  ⟨(restart_spec demoState).1.2.1, (restart_spec demoState).1.2.2,
   (restart_spec demoState).2.1 7, (restart_spec demoState).2.2 ⟨100, 1⟩⟩

/-- Claim C10: last_delivered_nonce returns the highest nonce of the last
relayers entry, falls back to last_confirmed_nonce when the deque is empty,
and returns zero on the Default value. -/
theorem last_delivered_nonce_spec {R : Type} (d : InboundLaneData R) :
    (∀ lo hi r, d.relayers.getLast? = some (lo, hi, r) → d.last_delivered_nonce = hi) ∧
    (d.relayers = [] → d.last_delivered_nonce = d.last_confirmed_nonce) ∧
    (InboundLaneData.default : InboundLaneData R).last_delivered_nonce = 0 := by
  refine ⟨?_, ?_, rfl⟩
  · intro lo hi r h
    simp [InboundLaneData.last_delivered_nonce, h]
  · intro h
    simp [InboundLaneData.last_delivered_nonce, h]

/-- Witness for C10 at concrete inbound lanes. -/
theorem last_delivered_nonce_spec_witness :
    demoLane.last_delivered_nonce = 3 ∧
    demoLaneEmpty.last_delivered_nonce = 9 ∧
    (InboundLaneData.default : InboundLaneData Nat).last_delivered_nonce = 0 :=
  ⟨(last_delivered_nonce_spec demoLane).1 1 3 7 rfl,
   (last_delivered_nonce_spec demoLaneEmpty).2.1 rfl,
   (last_delivered_nonce_spec (InboundLaneData.default : InboundLaneData Nat)).2.2⟩

/-- Claim C1: select_new_header_to_download returns nothing when the source
best number or the target best header is unknown, when the queue holds at
least max_future_headers_to_download headers, or when the best downloaded
number already equals the source best number; in every other case it returns
exactly the best downloaded number plus one. -/
theorem select_new_header_to_download_spec (s : HeadersSync) :
    ((s.source_best_number = none ∨ s.target_best_header = none ∨
      s.headers.total_headers ≥ s.params.max_future_headers_to_download ∨
      (∃ sb tb, s.source_best_number = some sb ∧ s.target_best_header = some tb ∧
        max s.headers.best_queued_number tb.number = sb)) →
      s.select_new_header_to_download = none) ∧
    (∀ sb tb, s.source_best_number = some sb → s.target_best_header = some tb →
      s.headers.total_headers < s.params.max_future_headers_to_download →
      max s.headers.best_queued_number tb.number ≠ sb →
      s.select_new_header_to_download = some (max s.headers.best_queued_number tb.number + 1)) := by
  constructor
  · rintro (h | h | h | ⟨sb, tb, hs, ht, heq⟩)
    · simp [HeadersSync.select_new_header_to_download, h]
    · cases hs : s.source_best_number with
      | none => simp [HeadersSync.select_new_header_to_download, hs]
      | some sb => simp [HeadersSync.select_new_header_to_download, hs, h]
    · cases hs : s.source_best_number with
      | none => simp [HeadersSync.select_new_header_to_download, hs]
      | some sb =>
        cases ht : s.target_best_header with
        | none => simp [HeadersSync.select_new_header_to_download, hs, ht]
        | some tb => simp [HeadersSync.select_new_header_to_download, hs, ht, h]
    · unfold HeadersSync.select_new_header_to_download
      rw [hs, ht]
      simp [heq]
  · intro sb tb hs ht hlt hne
    unfold HeadersSync.select_new_header_to_download
    rw [hs, ht]
    simp [Nat.not_le.mpr hlt, hne]

/-- Witness for C1 at the concrete state demoState. -/
theorem select_new_header_to_download_spec_witness :
    demoState.headers.total_headers < demoState.params.max_future_headers_to_download ∧
    max demoState.headers.best_queued_number 100 ≠ 102 ∧
    demoState.select_new_header_to_download = some (max demoState.headers.best_queued_number 100 + 1) :=
  ⟨by decide, by decide,
    (select_new_header_to_download_spec demoState).2 102 ⟨100, 0⟩ rfl rfl (by decide) (by decide)⟩

/-- Claim C3: target_best_header_response is a no-op returning false when the
reported id equals the recorded target best header; for any other id —
including a side-chain id at a known number — it forwards the id to the
queue, prunes exactly the headers with number at or below the reported
number saturating-minus the prune depth, records the id, and returns true. -/
theorem target_best_header_response_spec (s : HeadersSync) (bh : HeaderId) :
    (s.target_best_header = some bh → s.target_best_header_response bh = (false, s)) ∧
    (s.target_best_header ≠ some bh →
      (s.target_best_header_response bh).1 = true ∧
      (s.target_best_header_response bh).2.source_best_number = s.source_best_number ∧
      (s.target_best_header_response bh).2.params = s.params ∧
      (s.target_best_header_response bh).2.target_best_header = some bh ∧
      (s.target_best_header_response bh).2.headers =
        (s.headers.target_best_header_response bh).prune (bh.number - s.params.prune_depth) ∧
      (∀ e, e ∈ (s.target_best_header_response bh).2.headers.entries ↔
        (e ∈ s.headers.entries ∧ bh.number - s.params.prune_depth < e.1.id.number))) := by
  constructor
  · intro h
    simp [HeadersSync.target_best_header_response, h]
  · intro h
    unfold HeadersSync.target_best_header_response
    rw [if_neg h]
    refine ⟨rfl, rfl, rfl, rfl, rfl, ?_⟩
    intro e
    simp [QueuedHeaders.prune, QueuedHeaders.target_best_header_response, List.mem_filter]

/-- Witness for C3 at the concrete state demoState, reporting both the
recorded header itself and a side-chain id at the same number. -/
theorem target_best_header_response_spec_witness :
    demoState.target_best_header_response ⟨100, 0⟩ = (false, demoState) ∧
    demoState.target_best_header ≠ some ⟨100, 1⟩ ∧
    (demoState.target_best_header_response ⟨100, 1⟩).1 = true ∧
    (demoState.target_best_header_response ⟨100, 1⟩).2.target_best_header = some ⟨100, 1⟩ ∧
    ((⟨⟨101, 0⟩, 10⟩, HeaderStatus.Ready) ∈ (demoState.target_best_header_response ⟨100, 1⟩).2.headers.entries ↔
      ((⟨⟨101, 0⟩, 10⟩, HeaderStatus.Ready) ∈ demoState.headers.entries ∧
        (100 : Nat) - demoState.params.prune_depth < 101)) :=
  ⟨(target_best_header_response_spec demoState ⟨100, 0⟩).1 rfl,
   by decide,
   ((target_best_header_response_spec demoState ⟨100, 1⟩).2 (by decide)).1,
   ((target_best_header_response_spec demoState ⟨100, 1⟩).2 (by decide)).2.2.2.1,
   ((target_best_header_response_spec demoState ⟨100, 1⟩).2 (by decide)).2.2.2.2.2 _⟩

/-- The scheduler state with its target transaction mode replaced. -/
def HeadersSync.withMode (s : HeadersSync) (mode : TargetTransactionMode) : HeadersSync :=
  { s with params := { s.params with target_tx_mode := mode } }

/-- Claim C4: in Backup mode select_headers_to_submit(false) returns nothing
regardless of queue contents, and select_headers_to_submit(true) returns the
same result as in Signed or Unsigned mode over the same state; in Signed and
Unsigned modes the stalled flag does not affect the result. -/
theorem select_headers_to_submit_modes (s : HeadersSync) :
    (s.withMode TargetTransactionMode.Backup).select_headers_to_submit false = none ∧
    (s.withMode TargetTransactionMode.Backup).select_headers_to_submit true
      = (s.withMode TargetTransactionMode.Signed).select_headers_to_submit true ∧
    (s.withMode TargetTransactionMode.Backup).select_headers_to_submit true
      = (s.withMode TargetTransactionMode.Unsigned).select_headers_to_submit true ∧
    (∀ stalled, (s.withMode TargetTransactionMode.Signed).select_headers_to_submit stalled
      = (s.withMode TargetTransactionMode.Signed).select_headers_to_submit true) ∧
    (∀ stalled, (s.withMode TargetTransactionMode.Unsigned).select_headers_to_submit stalled
      = (s.withMode TargetTransactionMode.Unsigned).select_headers_to_submit true) := by
  refine ⟨?_, ?_, ?_, ?_, ?_⟩
  · simp [HeadersSync.select_headers_to_submit, HeadersSync.withMode]
  · simp [HeadersSync.select_headers_to_submit, HeadersSync.withMode]
  · simp [HeadersSync.select_headers_to_submit, HeadersSync.withMode]
  · intro stalled
    cases stalled <;> simp [HeadersSync.select_headers_to_submit, HeadersSync.withMode]
  · intro stalled
    cases stalled <;> simp [HeadersSync.select_headers_to_submit, HeadersSync.withMode]

/-- Claim C9: total_unrewarded_messages returns some 0 on the empty deque or
when the highest nonce of the back entry is below the lowest nonce of the
front entry; otherwise it returns the nonce-range length end - begin + 1,
overflowing to none exactly when end - begin equals the largest u64. -/
theorem total_unrewarded_messages_spec {R : Type} (l : List (Nat × Nat × R))
    (hbound : ∀ x ∈ l, x.2.1 ≤ UMAX) :
    (l = [] → total_unrewarded_messages l = some 0) ∧
    (∀ b x1 y1 e r1 r2, l.head? = some (b, x1, r1) → l.getLast? = some (y1, e, r2) →
      ((e < b → total_unrewarded_messages l = some 0) ∧
       (b ≤ e →
         ((e - b < UMAX → total_unrewarded_messages l = some (e - b + 1)) ∧
          (total_unrewarded_messages l = none ↔ e - b = UMAX))))) := by
  constructor
  · intro h
    subst h
    rfl
  · intro b x1 y1 e r1 r2 hh hl
    have he : e ≤ UMAX := by
      have hm := mem_of_getLast_opt hl
      exact hbound _ hm
    have hsub : e - b ≤ UMAX := le_trans (Nat.sub_le e b) he
    constructor
    · intro hlt
      unfold total_unrewarded_messages
      rw [hh, hl]
      simp [checked_sub, Nat.not_le.mpr hlt]
    · intro hle
      constructor
      · intro hsmall
        unfold total_unrewarded_messages
        rw [hh, hl]
        simp only [checked_sub, if_pos hle, checked_add_u64]
        rw [if_pos (by omega)]
      · unfold total_unrewarded_messages
        rw [hh, hl]
        simp only [checked_sub, if_pos hle, checked_add_u64]
        by_cases hc : e - b + 1 ≤ UMAX
        · rw [if_pos hc]
          simp
          omega
        · rw [if_neg hc]
          simp
          omega

/-- Witness for C9 at the concrete deque demoRelayers. -/
theorem total_unrewarded_messages_spec_witness :
    (3 : Nat) ≤ 9 ∧ (9 : Nat) - 3 < UMAX ∧
    total_unrewarded_messages demoRelayers = some (9 - 3 + 1) :=
  ⟨by decide, by decide,
    (((total_unrewarded_messages_spec demoRelayers (by decide)).2
      3 5 6 9 1 2 rfl rfl).2 (by decide)).1 (by decide)⟩

/-- Total estimated size of a batch of headers. -/
def sumSizes (l : List QueuedHeader) : Nat :=
  (l.map estimate_size).sum

/-- The early-exit walk selects an initial segment of the walked list. -/
theorem takeWhileState_initial {σ : Type} (f : QueuedHeader → σ → Option σ) :
    ∀ (l : List QueuedHeader) (st : σ), ∃ t, takeWhileState f st l ++ t = l := by
  intro l
  induction l with
  | nil => intro st; exact ⟨[], rfl⟩
  | cons h tl ih =>
    intro st
    cases hf : f h st with
    | none => exact ⟨h :: tl, by simp [takeWhileState, hf]⟩
    | some st2 =>
      obtain ⟨t, ht⟩ := ih st2
      exact ⟨t, by simp [takeWhileState, hf, ht]⟩

/-- The submission walk never selects past the in-flight submission budget. -/
theorem takeWhileState_submit_le_budget (budget maxc maxs : Nat) :
    ∀ (l : List QueuedHeader) (c sz : Nat), c ≤ budget →
      (takeWhileState (submit_step budget maxc maxs) (c, sz) l).length + c ≤ budget := by
  intro l
  induction l with
  | nil =>
    intro c sz hc
    simpa [takeWhileState] using hc
  | cons h tl ih =>
    intro c sz hc
    by_cases h1 : c = budget
    · simp [takeWhileState, submit_step, h1]
    · by_cases h2 : c = maxc
      · simp [takeWhileState, submit_step, h1, h2]
        omega
      · by_cases h3 : c ≠ 0 ∧ sz + estimate_size h > maxs
        · simp [takeWhileState, submit_step, h1, h2, h3]
          omega
        · have hrec := ih (c + 1) (sz + estimate_size h) (by omega)
          simp [takeWhileState, submit_step, h1, h2, h3]
          omega

/-- The submission walk never selects more than the single-submit cap. -/
theorem takeWhileState_submit_le_single (budget maxc maxs : Nat) :
    ∀ (l : List QueuedHeader) (c sz : Nat), c ≤ maxc →
      (takeWhileState (submit_step budget maxc maxs) (c, sz) l).length + c ≤ maxc := by
  intro l
  induction l with
  | nil =>
    intro c sz hc
    simpa [takeWhileState] using hc
  | cons h tl ih =>
    intro c sz hc
    by_cases h1 : c = budget
    · simp [takeWhileState, submit_step, h1]
      omega
    · by_cases h2 : c = maxc
      · simp [takeWhileState, submit_step, h1, h2]
      · by_cases h3 : c ≠ 0 ∧ sz + estimate_size h > maxs
        · simp [takeWhileState, submit_step, h1, h2, h3]
          omega
        · have hrec := ih (c + 1) (sz + estimate_size h) (by omega)
          simp [takeWhileState, submit_step, h1, h2, h3]
          omega

/-- Once at least one header has been accepted, the submission walk keeps
the accumulated size within the single-submit size cap. -/
theorem takeWhileState_submit_size (budget maxc maxs : Nat) :
    ∀ (l : List QueuedHeader) (c sz : Nat), c ≠ 0 →
      takeWhileState (submit_step budget maxc maxs) (c, sz) l ≠ [] →
      sz + sumSizes (takeWhileState (submit_step budget maxc maxs) (c, sz) l) ≤ maxs := by
  intro l
  induction l with
  | nil =>
    intro c sz hc hne
    simp [takeWhileState] at hne
  | cons h tl ih =>
    intro c sz hc hne
    by_cases h1 : c = budget
    · simp [takeWhileState, submit_step, h1] at hne
    · by_cases h2 : c = maxc
      · simp [takeWhileState, submit_step, h1, h2] at hne
      · by_cases h3 : c ≠ 0 ∧ sz + estimate_size h > maxs
        · simp [takeWhileState, submit_step, h1, h2, h3] at hne
        · have hsz : sz + estimate_size h ≤ maxs := by
            rcases Decidable.em (sz + estimate_size h > maxs) with hgt | hng
            · exact absurd ⟨hc, hgt⟩ h3
            · omega
          by_cases hrest : takeWhileState (submit_step budget maxc maxs) (c + 1, sz + estimate_size h) tl = []
          · simp [takeWhileState, submit_step, h1, h2, h3, sumSizes, hrest]
            omega
          · have hrec := ih (c + 1) (sz + estimate_size h) (by omega) hrest
            simp only [sumSizes] at hrec
            simp [takeWhileState, submit_step, h1, h2, h3, sumSizes]
            omega

/-- Any state the submission closure accepts is the previous state with the
header counted and its estimated size accumulated. -/
theorem submit_step_some {a b c : Nat} {h : QueuedHeader} {st st2 : Nat × Nat}
    (he : submit_step a b c h st = some st2) : st2 = (st.1 + 1, st.2 + estimate_size h) := by
  unfold submit_step at he
  split at he
  · exact Option.noConfusion he
  · split at he
    · exact Option.noConfusion he
    · split at he
      · exact Option.noConfusion he
      · injection he with h2
        exact h2.symm

/-- A batch produced by the ordered queue query is the early-exit walk over
the status, and is nonempty. -/
theorem queue_headers_eq_some {σ : Type} (q : QueuedHeaders) (status : HeaderStatus)
    (f : QueuedHeader → σ → Option σ) (init : σ) (batch : List QueuedHeader)
    (h : q.headers status f init = some batch) :
    batch = takeWhileState f init (q.inStatus status) ∧
    takeWhileState f init (q.inStatus status) ≠ [] := by
  unfold QueuedHeaders.headers at h
  by_cases hsel : takeWhileState f init (q.inStatus status) = []
  · simp [hsel] at h
  · simp [hsel] at h
    exact ⟨h.symm, hsel⟩

/-- A submission walk selecting at least two headers keeps their total
estimated size within the single-submit size cap. -/
theorem takeWhileState_submit_size_top (budget maxc maxs : Nat) (l : List QueuedHeader)
    (h2 : 2 ≤ (takeWhileState (submit_step budget maxc maxs) (0, 0) l).length) :
    sumSizes (takeWhileState (submit_step budget maxc maxs) (0, 0) l) ≤ maxs := by
  cases l with
  | nil => simp [takeWhileState] at h2
  | cons hh tt =>
    cases hstep : submit_step budget maxc maxs hh (0, 0) with
    | none =>
      have hred : takeWhileState (submit_step budget maxc maxs) ((0 : Nat), (0 : Nat)) (hh :: tt) = [] := by
        simp only [takeWhileState]
        rw [hstep]
      rw [hred] at h2
      simp at h2
    | some st2 =>
      have hst2 := submit_step_some hstep
      subst hst2
      have hred : takeWhileState (submit_step budget maxc maxs) ((0 : Nat), (0 : Nat)) (hh :: tt)
          = hh :: takeWhileState (submit_step budget maxc maxs) ((0, 0).1 + 1, (0, 0).2 + estimate_size hh) tt := by
        simp only [takeWhileState]
        rw [hstep]
      rw [hred] at h2 ⊢
      have htne : takeWhileState (submit_step budget maxc maxs) ((0, 0).1 + 1, (0, 0).2 + estimate_size hh) tt ≠ [] := by
        intro h0
        rw [h0] at h2
        simp at h2
      have hbound := takeWhileState_submit_size budget maxc maxs tt ((0, 0).1 + 1) ((0, 0).2 + estimate_size hh)
        (by omega) htne
      simp only [sumSizes, List.map_cons, List.sum_cons] at hbound ⊢
      omega

/-- Claim C2: every batch returned by select_headers_to_submit is an initial
segment of the Ready headers in ascending-number order, holds at most
max_headers_in_single_submit headers and at most the remaining in-flight
submission budget, and keeps its total estimated size within
max_headers_size_in_single_submit as soon as it holds two headers (the very
first header is included even if it alone exceeds the cap); the call returns
nothing when the Submitted count is at or above
max_headers_in_submitted_status. -/
theorem select_headers_to_submit_spec (s : HeadersSync) (stalled : Bool) :
    (∀ batch, s.select_headers_to_submit stalled = some batch →
      batch ≠ [] ∧
      (∃ t, batch ++ t = s.headers.inStatus HeaderStatus.Ready) ∧
      batch.length ≤ s.params.max_headers_in_single_submit ∧
      s.headers.headers_in_status HeaderStatus.Submitted < s.params.max_headers_in_submitted_status ∧
      batch.length ≤ s.params.max_headers_in_submitted_status - s.headers.headers_in_status HeaderStatus.Submitted ∧
      (2 ≤ batch.length → sumSizes batch ≤ s.params.max_headers_size_in_single_submit)) ∧
    (s.params.max_headers_in_submitted_status ≤ s.headers.headers_in_status HeaderStatus.Submitted →
      s.select_headers_to_submit stalled = none) := by
  constructor
  · intro batch hb
    unfold HeadersSync.select_headers_to_submit at hb
    by_cases hmode : s.params.target_tx_mode = TargetTransactionMode.Backup ∧ stalled = false
    · rw [if_pos hmode] at hb
      exact Option.noConfusion hb
    · rw [if_neg hmode] at hb
      cases hcs : checked_sub s.params.max_headers_in_submitted_status
          (s.headers.headers_in_status HeaderStatus.Submitted) with
      | none =>
        rw [hcs] at hb
        exact Option.noConfusion hb
      | some budget =>
        rw [hcs] at hb
        obtain ⟨hbatch, hne⟩ := queue_headers_eq_some _ _ _ _ _ hb
        have hcs2 : s.headers.headers_in_status HeaderStatus.Submitted ≤ s.params.max_headers_in_submitted_status ∧
            budget = s.params.max_headers_in_submitted_status - s.headers.headers_in_status HeaderStatus.Submitted := by
          unfold checked_sub at hcs
          split at hcs
          · rename_i hcle
            injection hcs with hval
            exact ⟨hcle, hval.symm⟩
          · exact Option.noConfusion hcs
        obtain ⟨hcle, hval⟩ := hcs2
        have hbne : budget ≠ 0 := by
          intro h0
          subst h0
          cases hr : s.headers.inStatus HeaderStatus.Ready with
          | nil =>
            rw [hr] at hne
            exact hne rfl
          | cons hh tt =>
            rw [hr] at hne
            simp [takeWhileState, submit_step] at hne
        subst hbatch
        refine ⟨hne, takeWhileState_initial _ _ _, ?_, ?_, ?_, ?_⟩
        · have hlen := takeWhileState_submit_le_single budget s.params.max_headers_in_single_submit
            s.params.max_headers_size_in_single_submit (s.headers.inStatus HeaderStatus.Ready)
            0 0 (Nat.zero_le _)
          omega
        · omega
        · have hlen := takeWhileState_submit_le_budget budget s.params.max_headers_in_single_submit
            s.params.max_headers_size_in_single_submit (s.headers.inStatus HeaderStatus.Ready)
            0 0 (Nat.zero_le _)
          omega
        · intro h2len
          exact takeWhileState_submit_size_top budget _ _ _ h2len
  · intro hsub
    unfold HeadersSync.select_headers_to_submit
    by_cases hmode : s.params.target_tx_mode = TargetTransactionMode.Backup ∧ stalled = false
    · rw [if_pos hmode]
    · rw [if_neg hmode]
      by_cases hc : s.headers.headers_in_status HeaderStatus.Submitted ≤ s.params.max_headers_in_submitted_status
      · have heq : checked_sub s.params.max_headers_in_submitted_status
            (s.headers.headers_in_status HeaderStatus.Submitted) = some 0 := by
          unfold checked_sub
          rw [if_pos hc]
          have hzero : s.params.max_headers_in_submitted_status - s.headers.headers_in_status HeaderStatus.Submitted = 0 := by
            omega
          rw [hzero]
        rw [heq]
        cases hr : s.headers.inStatus HeaderStatus.Ready with
        | nil => simp [QueuedHeaders.headers, hr, takeWhileState]
        | cons hh tt => simp [QueuedHeaders.headers, hr, takeWhileState, submit_step]
      · have heq : checked_sub s.params.max_headers_in_submitted_status
            (s.headers.headers_in_status HeaderStatus.Submitted) = none := by
          unfold checked_sub
          rw [if_neg hc]
        rw [heq]

/-- Witness for C2: demoState yields the singleton batch of header 101, and
demoFull, whose submission budget is exhausted, yields nothing. -/
theorem select_headers_to_submit_spec_witness :
    demoState.select_headers_to_submit false = some [⟨⟨101, 0⟩, 10⟩] ∧
    (∃ t, [(⟨⟨101, 0⟩, 10⟩ : QueuedHeader)] ++ t = demoState.headers.inStatus HeaderStatus.Ready) ∧
    demoFull.params.max_headers_in_submitted_status ≤ demoFull.headers.headers_in_status HeaderStatus.Submitted ∧
    demoFull.select_headers_to_submit false = none :=
  ⟨by decide,
   ((select_headers_to_submit_spec demoState false).1 [⟨⟨101, 0⟩, 10⟩] (by decide)).2.1,
   by decide,
   (select_headers_to_submit_spec demoFull false).2 (by decide)⟩
